import Mathlib

/-!
Verification development for the Stickon AI note-taking client
(spatial canvas + carousel + persistence synchronizer).

Each definition is a shallow embedding of a function in the TypeScript
source; the file reference is given in the doc comment. Machine
floating-point numbers are modelled as rationals (the arithmetic the
claims concern is exact), `string | null` fields as `Option String`,
and the remote record store as an explicit success flag / request trace.
-/

namespace Stickon

/-! ## String primitives

JS `String.prototype.includes` and `String.prototype.toLowerCase`
modelled over the character list of the string. -/

/-- Tests whether `needle` occurs at the start of the second list
(the prefix test underlying `String.includes`). -/
def beginsWith : List Char → List Char → Bool
  | [], _ => true
  | _ :: _, [] => false
  | c :: cs, d :: ds => c == d && beginsWith cs ds

/-- Tests whether `needle` occurs contiguously anywhere in the second list. -/
def containsSeq (needle : List Char) : List Char → Bool
  | [] => beginsWith needle []
  | d :: ds => beginsWith needle (d :: ds) || containsSeq needle ds

/-- Embedding of JS `hay.includes(q)`: substring containment. -/
def strIncludes (hay q : String) : Bool :=
  containsSeq q.data hay.data

/-- Embedding of JS `s.toLowerCase()` (per-character lowering). -/
def lower (s : String) : String :=
  String.mk (s.data.map Char.toLower)

/-! ## Data model

`Note` from `src/types.ts` / `src/unnamed/part_000` (the supabase-backed
variant used by `App.tsx`): only the fields the verified core reads.
`tags` and `summary` are `Option` because the code guards them with JS
truthiness checks (`note.tags && ...`), and canvas coordinates are
nullable in the row type (`number | null`). -/

structure Note where
  id : String
  user_id : String
  text : String
  summary : Option String
  tags : Option (List String)
  is_pinned : Bool
  stack_id : Option String
  canvas_x : Option ℚ
  canvas_y : Option ℚ
  color : String
  deriving Repr, DecidableEq

/-- Embedding of the JS idiom `value || 0` on a nullable number
(`null` and `0` both yield `0`). -/
def orZero (o : Option ℚ) : ℚ :=
  o.getD 0

/-! ## Filtering and the pinned sort (`src/App.tsx` lines 145-166) -/

/-- Embedding of the `searchMatch` clause of the `filteredNotes` memo
(`src/App.tsx` lines 147-151): empty search term matches everything,
otherwise a case-insensitive substring match against the body text, the
summary (when present and non-empty, per JS truthiness), or any tag. -/
def searchMatch (q : String) (n : Note) : Bool :=
  let term := lower q
  if term = "" then true
  else
    strIncludes (lower n.text) term
    || (match n.summary with
        | some s => !(s == "") && strIncludes (lower s) term
        | none => false)
    || (match n.tags with
        | some ts => ts.any (fun t => strIncludes (lower t) term)
        | none => false)

/-- Embedding of the `tagsMatch` clause (`src/App.tsx` lines 153-155):
with active tag filters, every active tag must be among the note's tags
(an absent tags array fails every filter, i.e. behaves as empty). -/
def tagsMatch (ats : List String) (n : Note) : Bool :=
  if 0 < ats.length then
    ats.all (fun a =>
      match n.tags with
      | some ts => ts.contains a
      | none => false)
  else true

/-- Embedding of the comparator passed to `.sort` at
`src/App.tsx` lines 161-165. -/
def pinCompare (a b : Note) : Int :=
  if a.is_pinned && !b.is_pinned then -1
  else if !a.is_pinned && b.is_pinned then 1
  else 0

/-- Embedding of the stable `Array.prototype.sort` (ES2019 sorts are
stable) applied with `pinCompare`: the comparator distinguishes only the
two pin classes, so the unique stable result is the stable partition —
pinned notes first, each class in its original relative order. -/
def sortPinned (l : List Note) : List Note :=
  l.filter (fun n => n.is_pinned) ++ l.filter (fun n => !n.is_pinned)

/-- Embedding of the `filteredNotes` memo (`src/App.tsx` lines 145-166):
filter by search term and active tags, then the stable pinned-first sort. -/
def filteredNotes (notes : List Note) (q : String) (ats : List String) : List Note :=
  sortPinned (notes.filter (fun n => searchMatch q n && tagsMatch ats n))

/-- Embedding of the `carouselNotes` memo (`src/App.tsx` lines 168-170):
the filtered notes with no stack parent. -/
def carouselNotes (notes : List Note) (q : String) (ats : List String) : List Note :=
  (filteredNotes notes q ats).filter (fun n => n.stack_id == none)

/-! Specification-side visibility predicate, written from the spec's
words for claim C5 ("a note appears in the filtered list iff ..."), to be
compared with the code-side `filteredNotes`. -/

/-- The note's tag list with an absent array treated as empty (spec §3). -/
def specTags (n : Note) : List String :=
  n.tags.getD []

/-- Case-insensitive substring match, spec wording. -/
def IncludesCI (hay q : String) : Prop :=
  strIncludes (lower hay) (lower q) = true

/-- Spec-side filter predicate for claim C5, following the spec sentence:
(search term empty, or case-insensitive substring match against text,
summary, or some tag) and (no active tags, or the tag set contains every
active tag, absent tags treated as empty). -/
def SpecVisible (q : String) (ats : List String) (n : Note) : Prop :=
  (q = "" ∨ IncludesCI n.text q
    ∨ (∃ s, n.summary = some s ∧ IncludesCI s q)
    ∨ (∃ t, t ∈ specTags n ∧ IncludesCI t q))
  ∧ (ats = [] ∨ ∀ a, a ∈ ats → a ∈ specTags n)

/-! ## Debounced position persistence (`src/App.tsx` lines 617-641)

The `debounce` helper closes over a SINGLE `timeout` variable:

    const debounce = (func, delay) => {
      let timeout;
      return (...args) => { clearTimeout(timeout); timeout = setTimeout(() => func(...args), delay); };
    };

and `debouncedSavePosition = debounce(savePositionUpdate, 500)`. The
machine state is the single pending call (if any); arming cancels any
pending call, whatever its note id. -/

/-- Arguments of one pending `savePositionUpdate(noteId, x, y)` call. -/
structure PosWrite where
  noteId : String
  x : ℚ
  y : ℚ
  deriving Repr, DecidableEq

/-- Events of the debounce machine: a new position change is submitted
(`handleNotePositionUpdate` calling `debouncedSavePosition`), or the
500 ms quiet period elapses and the timer fires. -/
inductive DebEvent where
  | submit (w : PosWrite)
  | fire
  deriving Repr, DecidableEq

/-- One step of the single-timer debounce: `submit` clears whatever
timeout is pending and schedules the new call; `fire` performs the
pending network write (returned in the second component). -/
def debStep : Option PosWrite → DebEvent → Option PosWrite × List PosWrite
  | _, DebEvent.submit w => (some w, [])
  | some w, DebEvent.fire => (none, [w])
  | none, DebEvent.fire => (none, [])

/-- Run of the debounce machine over an event list, collecting the
network writes actually performed, in order. -/
def debRun : Option PosWrite → List DebEvent → Option PosWrite × List PosWrite
  | p, [] => (p, [])
  | p, e :: es =>
    let r := debStep p e
    let rest := debRun r.1 es
    (rest.1, r.2 ++ rest.2)

/-! ## Note drag release (`src/components/CanvasNote.tsx` lines 35-51) -/

/-- The single action a drag release produces: either one position
commit (`onPositionChange(note.id, newX, newY)`) or one view click
(`onView(note)`). -/
inductive ReleaseAction where
  | commit (noteId : String) (x y : ℚ)
  | view (n : Note)
  deriving Repr, DecidableEq

/-- Embedding of `handleMouseUp` in `CanvasNote` (lines 35-51): with
cumulative screen-space delta `(dx, dy)` since mousedown, a release past
the drag threshold (`Math.abs(dx) > 5 || Math.abs(dy) > 5`, strict)
commits `startPosition + delta / scale`; otherwise it is a view click. -/
def handleMouseUp (n : Note) (dx dy scale : ℚ) : ReleaseAction :=
  if 5 < |dx| ∨ 5 < |dy| then
    ReleaseAction.commit n.id (orZero n.canvas_x + dx / scale) (orZero n.canvas_y + dy / scale)
  else
    ReleaseAction.view n

/-! ## Canvas transform and zoom-at-point (`src/unnamed/part_008`, the
`InfiniteCanvas` component) -/

/-- The canvas transform state `{ x, y, scale }` (pan offset and zoom). -/
structure Transform where
  x : ℚ
  y : ℚ
  scale : ℚ
  deriving Repr, DecidableEq

/-- `MIN_SCALE` from `src/unnamed/part_008` line 14. -/
def MIN_SCALE : ℚ := 1 / 5

/-- `MAX_SCALE` from `src/unnamed/part_008` line 15. -/
def MAX_SCALE : ℚ := 2

/-- The scale clamp `Math.min(Math.max(s, MIN_SCALE), MAX_SCALE)`. -/
def clampScale (s : ℚ) : ℚ :=
  min (max s MIN_SCALE) MAX_SCALE

/-- Embedding of `handleWheel` (`src/unnamed/part_008` lines 66-82):
`delta = e.deltaY * -0.005`, new scale clamped, and the offset adjusted
so the canvas point under the mouse stays put. `(px, py)` is the mouse
position relative to the canvas rect. -/
def handleWheel (t : Transform) (deltaY px py : ℚ) : Transform :=
  let delta := deltaY * (-1 / 200)
  let newScale := clampScale (t.scale + delta)
  { x := t.x + (px - t.x) * (1 - newScale / t.scale),
    y := t.y + (py - t.y) * (1 - newScale / t.scale),
    scale := newScale }

/-- Embedding of the pinch branch of `handleTouchMove`
(`src/unnamed/part_008` lines 109-131): the scale is multiplied by the
frame-to-frame distance ratio, clamped, and the same anchor adjustment
is applied at the pinch midpoint `(px, py)`. -/
def pinchZoomStep (t : Transform) (scaleFactor px py : ℚ) : Transform :=
  let newScale := clampScale (t.scale * scaleFactor)
  { x := t.x + (px - t.x) * (1 - newScale / t.scale),
    y := t.y + (py - t.y) * (1 - newScale / t.scale),
    scale := newScale }

/-- Inverse coordinate transform: the canvas-space point rendered under
screen point `(px, py)` by transform `t` (forward transform being
`screen = canvas * scale + offset`, spec §4.1). -/
def canvasOfScreen (t : Transform) (px py : ℚ) : ℚ × ℚ :=
  ((px - t.x) / t.scale, (py - t.y) / t.scale)

/-! ## Optimistic persistence protocols (`src/App.tsx`) -/

/-- Outcome of a local+remote mutation: the resulting local collection
and whether an error toast was shown. -/
structure WriteOutcome where
  notes : List Note
  errorReported : Bool
  deriving Repr, DecidableEq

/-- Embedding of `deleteNote` (`src/App.tsx` lines 274-282): copy
`originalNotes`, optimistically filter the note out of local state, then
attempt the remote delete (`remoteOk` is its outcome); on failure show a
toast and restore `originalNotes`. -/
def deleteNoteProtocol (notes : List Note) (id : String) (remoteOk : Bool) : WriteOutcome :=
  let originalNotes := notes
  let optimistic := notes.filter (fun n => n.id != id)
  if remoteOk then { notes := optimistic, errorReported := false }
  else { notes := originalNotes, errorReported := true }

/-- Embedding of `handleNotePositionUpdate` (`src/App.tsx` lines
638-641), local half: the note's position is updated in local state
immediately and unconditionally (the network write is the debounced
part, modelled by `debStep`/`debRun`). -/
def handleNotePositionUpdate (notes : List Note) (noteId : String) (x y : ℚ) : List Note :=
  notes.map (fun n =>
    if n.id == noteId then { n with canvas_x := some x, canvas_y := some y } else n)

/-- Embedding of `savePositionUpdate` (`src/App.tsx` lines 625-634): the
debounced network write; on failure a toast is shown and local state is
deliberately NOT reverted ("No state reversal on failure for now to
avoid jumpiness"). -/
def savePositionUpdate (notes : List Note) (remoteOk : Bool) : WriteOutcome :=
  if remoteOk then { notes := notes, errorReported := false }
  else { notes := notes, errorReported := true }

/-! ## Tidy layout (`src/App.tsx` lines 643-688) -/

/-- One row of the batched position payload built by `handleTidyCanvas`. -/
structure PosUpdate where
  id : String
  user_id : String
  canvas_x : ℚ
  canvas_y : ℚ
  deriving Repr, DecidableEq

/-- A request issued to the remote record store by the layout paths:
either one batched multi-row upsert or a single-note position update. -/
inductive Request where
  | upsert (us : List PosUpdate)
  | updateOne (id : String) (x y : ℚ)
  deriving Repr, DecidableEq

/-- `NOTE_WIDTH` (`src/App.tsx` line 667). -/
def NOTE_WIDTH : ℚ := 280

/-- `NOTE_HEIGHT` (`src/App.tsx` line 668). -/
def NOTE_HEIGHT : ℚ := 180

/-- `GAP_X` (`src/App.tsx` line 669). -/
def GAP_X : ℚ := 40

/-- `GAP_Y` (`src/App.tsx` line 670). -/
def GAP_Y : ℚ := 40

/-- `COLUMNS = Math.max(1, Math.floor(containerWidth / (NOTE_WIDTH + GAP_X)))`
(`src/App.tsx` line 674). -/
def tidyColumns (w : ℚ) : ℕ :=
  max 1 (⌊w / (NOTE_WIDTH + GAP_X)⌋).toNat

/-- Embedding of `notesToTidy.map((note, index) => ...)`: a map carrying
the running 0-based index. -/
def tidyAssign (columns : ℕ) : ℕ → List Note → List PosUpdate
  | _, [] => []
  | i, n :: rest =>
    { id := n.id, user_id := n.user_id,
      canvas_x := ((i % columns : ℕ) : ℚ) * (NOTE_WIDTH + GAP_X) + GAP_X,
      canvas_y := ((i / columns : ℕ) : ℚ) * (NOTE_HEIGHT + GAP_Y) + GAP_Y }
      :: tidyAssign columns (i + 1) rest

/-- Embedding of `handleTidyCanvas` (`src/App.tsx` lines 660-688) with
the container width (`window.innerWidth * 0.95` at the call site) as a
parameter: assign each filtered note a grid cell by index. -/
def handleTidyCanvas (notesToTidy : List Note) (containerWidth : ℚ) : List PosUpdate :=
  tidyAssign (tidyColumns containerWidth) 0 notesToTidy

/-- Embedding of the local half of `handleUpdateNotePositions`
(`src/App.tsx` lines 643-649): positions applied through a JS `Map`
built from the update rows (later entries win on duplicate ids, hence
the `reverse` before `find?`). -/
def applyPosUpdates (notes : List Note) (updates : List PosUpdate) : List Note :=
  notes.map (fun n =>
    match updates.reverse.find? (fun u => u.id == n.id) with
    | some u => { n with canvas_x := some u.canvas_x, canvas_y := some u.canvas_y }
    | none => n)

/-- Embedding of `handleUpdateNotePositions` (`src/App.tsx` lines
643-658): local state updated for immediate feedback, then ONE batched
`upsert` request carrying every row. -/
def handleUpdateNotePositions (notes : List Note) (updates : List PosUpdate) :
    List Note × List Request :=
  (applyPosUpdates notes updates, [Request.upsert updates])

/-! ## Stacking state machine (`src/App.tsx` lines 560-573) -/

/-- The app state the stacking machine touches: the note collection and
`stackingNoteId` (`none` = inactive, `some id` = armed). -/
structure AppState where
  notes : List Note
  stackingNoteId : Option String
  deriving Repr, DecidableEq

/-- Embedding of `handleStartStack` (`src/App.tsx` lines 560-562):
toggle — arming on the already-armed note disarms. -/
def handleStartStack (s : AppState) (id : String) : AppState :=
  { s with stackingNoteId := if s.stackingNoteId = some id then none else some id }

/-- Success path of `updateNoteInDbAndState` (`src/App.tsx` lines
303-317) for a `stack_id` assignment: the store echoes the updated
record and the local collection replaces the matching note with it. -/
def setStackId (notes : List Note) (id target : String) : List Note :=
  notes.map (fun n => if n.id == id then { n with stack_id := some target } else n)

/-- Embedding of `handleFinishStack` (`src/App.tsx` lines 564-573):
no-op when inactive or when the target is the armed note itself;
otherwise set the armed note's `stack_id` to the target via the standard
update path and return to inactive. -/
def handleFinishStack (s : AppState) (targetId : String) : AppState :=
  match s.stackingNoteId with
  | none => s
  | some src =>
    if src = targetId then s
    else { notes := setStackId s.notes src targetId, stackingNoteId := none }

/-! ## Carousel index reset effect (`src/App.tsx` lines 177-179)

    useEffect(() => { setActiveIndex(0); }, [carouselNotes.length]);

The dependency array holds only the LENGTH of the carousel set, so the
effect re-runs (and resets the index) exactly when that length differs
from the previous render's. -/

/-- The `activeIndex` after a render, given the previous render's
carousel length, the new length, and the current index. -/
def effectResetIndex (oldLen newLen idx : ℕ) : ℕ :=
  if newLen ≠ oldLen then 0 else idx

/-! ## Carousel positioner and navigation (`src/App.tsx` lines 691-697
and 784-802) -/

/-- The per-slide render parameters computed in the `carouselNotes.map`
body (`src/App.tsx` lines 785-790). -/
structure SlideStyle where
  rotationY : ℚ
  scale : ℚ
  translateX : ℚ
  translateZ : ℚ
  opacity : ℚ
  zIndex : ℤ
  pointerEventsAuto : Bool
  deriving Repr, DecidableEq

/-- Embedding of the slide style computation: `offset = index - activeIndex`,
rotation `offset * -25`, scale `1 - |offset| * 0.2`, translateX
`offset * 40` (% of width), translateZ `|offset| * -150`, opacity 1 iff
`|offset| <= 2`, `zIndex = 100 - |offset|`, pointer events only at
`offset == 0`. -/
def slideStyle (index activeIndex : ℕ) : SlideStyle :=
  let offset : ℤ := (index : ℤ) - (activeIndex : ℤ)
  { rotationY := (offset : ℚ) * (-25),
    scale := 1 - (|offset| : ℚ) * (1 / 5),
    translateX := (offset : ℚ) * 40,
    translateZ := (|offset| : ℚ) * (-150),
    opacity := if |offset| ≤ 2 then 1 else 0,
    zIndex := 100 - |offset|,
    pointerEventsAuto := offset = 0 }

/-- Carousel navigation state: the carousel set's length and the active
index. -/
structure CarouselState where
  len : ℕ
  activeIndex : ℕ
  deriving Repr, DecidableEq

/-- Reachable carousel states, one constructor per way `activeIndex` is
written in the source: the initial `useState(0)` (with the mount effect),
`goNext` / `goPrev` (rendered only when the set has more than one note,
`src/App.tsx` lines 691-697 and 841), `handleNavigateToNote` with a
found index (`src/App.tsx` lines 436-438), and a change of the carousel
set with the length-keyed reset effect applied (lines 177-179). -/
inductive Reachable : CarouselState → Prop where
  | init (n : ℕ) : Reachable ⟨n, 0⟩
  | next {s : CarouselState} : Reachable s → 1 < s.len →
      Reachable ⟨s.len, (s.activeIndex + 1) % s.len⟩
  | prev {s : CarouselState} : Reachable s → 1 < s.len →
      Reachable ⟨s.len, (s.activeIndex + s.len - 1) % s.len⟩
  | navigate {s : CarouselState} (k : ℕ) : Reachable s → k < s.len →
      Reachable ⟨s.len, k⟩
  | setChange {s : CarouselState} (m : ℕ) : Reachable s →
      Reachable ⟨m, effectResetIndex s.len m s.activeIndex⟩

/-! ## Concrete notes for witnesses and counterexamples -/

/-- A plain unpinned, unstacked note with the given id and body text. -/
def baseNote (id text : String) : Note :=
  { id := id, user_id := "user-1", text := text, summary := none,
    tags := none, is_pinned := false, stack_id := none,
    canvas_x := some 0, canvas_y := some 0, color := "bg-white" }

/-- Sample collection: two notes matching "apple", two matching "banana". -/
def sampleNotes : List Note :=
  [baseNote (r"n1") (r"apple one"), baseNote (r"n2") (r"apple two"),
   baseNote (r"n3") (r"banana one"), baseNote (r"n4") (r"banana two")]

/-- The first sample note (id `n1`). -/
def sampleNote1 : Note :=
  baseNote (r"n1") (r"apple one")

/-- Id of the note deleted in the claim C10 witness. -/
def delId : String := "n1"

/-- A note stacked onto `n1`, for the dangling-pointer part of claim C10. -/
def stackedNote : Note :=
  { id := "s1", user_id := "user-1", text := "stacked child", summary := none,
    tags := none, is_pinned := false, stack_id := some delId,
    canvas_x := some 0, canvas_y := some 0, color := "bg-white" }

/-- Sample collection extended with a note stacked onto `n1`. -/
def notesWithStack : List Note :=
  stackedNote :: sampleNotes

/-- A concrete note used by the claim C2 theorems. -/
def probeNote : Note :=
  baseNote (r"p1") (r"hello")

/-- The empty search term (used to change the carousel set's length). -/
def termEmpty : String := ""

/-- Source-note id for the claim C7 witness. -/
def srcId : String := "src"

/-- Target-note id for the claim C7 witness. -/
def tgtId : String := "tgt"

/-- Container width used by the claim C6 witness. -/
def w1000 : ℚ := 1000

/-- The search term used in the claim C8 counterexample. -/
def termApple : String := "apple"

/-- The second search term used in the claim C8 counterexample. -/
def termBanana : String := "banana"

/-- Pending write for note A in the claim C1 counterexample. -/
def writeA : PosWrite := { noteId := "A", x := 10, y := 10 }

/-- Pending write for note B in the claim C1 counterexample. -/
def writeB : PosWrite := { noteId := "B", x := 20, y := 20 }

/-! ## Helper lemmas -/

/-- The clamped scale is strictly positive (it is at least `MIN_SCALE`). -/
theorem clampScale_pos (x : ℚ) : 0 < clampScale x := by
  have h1 : MIN_SCALE ≤ max x MIN_SCALE := le_max_right _ _
  have h2 : MIN_SCALE ≤ clampScale x := by
    unfold clampScale
    exact le_min h1 (by norm_num [MIN_SCALE, MAX_SCALE])
  have h3 : (0 : ℚ) < MIN_SCALE := by norm_num [MIN_SCALE]
  linarith

/-- Core anchor algebra: the offset adjustment
`tx + (px - tx) * (1 - s2 / s1)` keeps `(px - tx) / scale` unchanged when
the scale moves from `s1` to `s2` (both nonzero). -/
theorem anchor_adjust (tx px s1 s2 : ℚ) (h1 : s1 ≠ 0) (h2 : s2 ≠ 0) :
    (px - (tx + (px - tx) * (1 - s2 / s1))) / s2 = (px - tx) / s1 := by
  field_simp
  ring

/-! ## Claim C1 -/

/-- Claim C1 counterexample: the debounce closes over a single shared
timer, so submitting a position change for note B while note A's write
is pending cancels A's write — after the quiet period only B's position
is written and A's latest position is never persisted. -/
theorem C1_counterexample :
    writeA.noteId ≠ writeB.noteId ∧
    debRun none [DebEvent.submit writeA, DebEvent.submit writeB, DebEvent.fire]
      = (none, [writeB]) ∧
    writeA ∉ (debRun none [DebEvent.submit writeA, DebEvent.submit writeB, DebEvent.fire]).2 := by
  decide

/-- Claim C1 (amended): the debounced position persistence is global,
not keyed per note id — submitting a position change unconditionally
cancels whatever write was pending (for any note) and reschedules with
the new arguments, and when the quiet period elapses exactly the most
recent submission is written. -/
theorem C1_theorem (pending : Option PosWrite) (w : PosWrite) :
    debStep pending (DebEvent.submit w) = (some w, []) ∧
    debStep (some w) DebEvent.fire = (none, [w]) ∧
    debRun pending [DebEvent.submit w, DebEvent.fire] = (none, [w]) := by
  cases pending <;> simp [debStep, debRun]

/-! ## Claim C2 -/

/-- Claim C2 counterexample: at cumulative screen delta `(5, 0)` the
claim's threshold (`|dx| >= 5`) mandates a position commit, but the code
(`Math.abs(dx) > 5 || Math.abs(dy) > 5`, strict) treats the release as a
view click. -/
theorem C2_counterexample :
    (5 : ℚ) ≤ |(5 : ℚ)| ∧ handleMouseUp probeNote 5 0 1 = ReleaseAction.view probeNote := by
  constructor
  · norm_num
  · simp [handleMouseUp]

/-- Claim C2 (amended): for a note drag at zoom scale `s` within the
clamp range, release with strict threshold `|dx| > 5` or `|dy| > 5`
yields exactly one position commit at `startPosition + delta / s` and no
view action; release with `|dx| <= 5` and `|dy| <= 5` commits nothing
and yields exactly one view action. -/
theorem C2_theorem (n : Note) (dx dy s : ℚ) (h1 : MIN_SCALE ≤ s) (h2 : s ≤ MAX_SCALE) :
    (5 < |dx| ∨ 5 < |dy| →
      handleMouseUp n dx dy s
        = ReleaseAction.commit n.id (orZero n.canvas_x + dx / s) (orZero n.canvas_y + dy / s)) ∧
    (|dx| ≤ 5 ∧ |dy| ≤ 5 → handleMouseUp n dx dy s = ReleaseAction.view n) := by
  constructor
  · intro h
    simp [handleMouseUp, h]
  · intro h
    have hnot : ¬(5 < |dx| ∨ 5 < |dy|) := by
      push_neg
      exact ⟨h.1, h.2⟩
    simp [handleMouseUp, hnot]

/-- Claim C2 witness: the spec's own example — drag from `(0,0)` with
screen delta `(100, 50)` at scale 2 commits position `(50, 25)`. -/
theorem C2_witness :
    handleMouseUp probeNote 100 50 2 = ReleaseAction.commit probeNote.id 50 25 := by
  have h := (C2_theorem probeNote 100 50 2 (by norm_num [MIN_SCALE]) (by norm_num [MAX_SCALE])).1
    (by norm_num)
  simpa [probeNote, baseNote, orZero, show (100 : ℚ) / 2 = 50 by norm_num,
    show (50 : ℚ) / 2 = 25 by norm_num] using h

/-! ## Claim C3 -/

/-- Claim C3: zoom-at-point anchor invariance — for a transform whose
scale is in the clamp range, both the wheel zoom and a pinch step leave
the canvas-space point under the anchor screen point unchanged (the new
offset is computed from the clamped new scale consistently). -/
theorem C3_theorem (t : Transform) (deltaY f px py : ℚ)
    (h1 : MIN_SCALE ≤ t.scale) (h2 : t.scale ≤ MAX_SCALE) :
    canvasOfScreen (handleWheel t deltaY px py) px py = canvasOfScreen t px py ∧
    canvasOfScreen (pinchZoomStep t f px py) px py = canvasOfScreen t px py := by
  have hs : t.scale ≠ 0 := by
    have h3 : (0 : ℚ) < MIN_SCALE := by norm_num [MIN_SCALE]
    intro h
    rw [h] at h1
    linarith
  constructor
  · have hs2 : clampScale (t.scale + deltaY * (-1 / 200)) ≠ 0 :=
      ne_of_gt (clampScale_pos _)
    unfold handleWheel canvasOfScreen
    exact Prod.ext (anchor_adjust t.x px t.scale _ hs hs2) (anchor_adjust t.y py t.scale _ hs hs2)
  · have hs2 : clampScale (t.scale * f) ≠ 0 := ne_of_gt (clampScale_pos _)
    unfold pinchZoomStep canvasOfScreen
    exact Prod.ext (anchor_adjust t.x px t.scale _ hs hs2) (anchor_adjust t.y py t.scale _ hs hs2)

/-- Claim C3 witness: concrete wheel zoom and pinch step from the
identity transform at anchor `(10, 20)`. -/
theorem C3_witness :
    canvasOfScreen (handleWheel { x := 0, y := 0, scale := 1 } 100 10 20) 10 20
        = canvasOfScreen { x := 0, y := 0, scale := 1 } 10 20 ∧
    canvasOfScreen (pinchZoomStep { x := 0, y := 0, scale := 1 } (3 / 2) 10 20) 10 20
        = canvasOfScreen { x := 0, y := 0, scale := 1 } 10 20 :=
  C3_theorem { x := 0, y := 0, scale := 1 } 100 (3 / 2) 10 20
    (by norm_num [MIN_SCALE]) (by norm_num [MAX_SCALE])

/-! ## Claim C4 -/

/-- Claim C4: deletion is optimistic with full rollback — on remote
success the note is removed and no error is shown; on remote failure the
collection is restored exactly to its pre-removal state and an error is
reported. The debounced position write, by contrast, reports an error on
remote failure but leaves the optimistic local state (the already
applied position) in place with no rollback. -/
theorem C4_theorem (notes : List Note) (id nid : String) (x y : ℚ) :
    deleteNoteProtocol notes id true
        = { notes := notes.filter (fun n => n.id != id), errorReported := false } ∧
    deleteNoteProtocol notes id false = { notes := notes, errorReported := true } ∧
    savePositionUpdate (handleNotePositionUpdate notes nid x y) false
        = { notes := handleNotePositionUpdate notes nid x y, errorReported := true } := by
  refine ⟨rfl, rfl, rfl⟩

/-! ## Claim C6 -/

/-- Tidy assigns one update row per note. -/
theorem tidyAssign_length (c s : ℕ) (l : List Note) :
    (tidyAssign c s l).length = l.length := by
  induction l generalizing s with
  | nil => rfl
  | cons n rest ih => simp [tidyAssign, ih]

/-- Row `i` of the tidy assignment starting at index `s` places note `i`
in grid cell `((s+i) % c, (s+i) / c)`. -/
theorem tidyAssign_getElem (c : ℕ) (l : List Note) (s i : ℕ) :
    (tidyAssign c s l)[i]? = (l[i]?).map (fun n =>
      { id := n.id, user_id := n.user_id,
        canvas_x := (((s + i) % c : ℕ) : ℚ) * (NOTE_WIDTH + GAP_X) + GAP_X,
        canvas_y := (((s + i) / c : ℕ) : ℚ) * (NOTE_HEIGHT + GAP_Y) + GAP_Y }) := by
  induction l generalizing s i with
  | nil => simp [tidyAssign]
  | cons n rest ih =>
    cases i with
    | zero => simp [tidyAssign]
    | succ k =>
      have harith : s + (k + 1) = (s + 1) + k := by omega
      simp [tidyAssign, ih (s + 1) k, harith]

/-- Claim C6: tidy layout — the update list has one row per filtered
note; row `i` carries note `i`'s id and the grid position
`x = (i mod columns) * (noteWidth + gapX) + gapX`,
`y = (i / columns) * (noteHeight + gapY) + gapY` with
`columns = max(1, floor(w / (noteWidth + gapX)))`; two distinct indices
never share a `(row, col)` cell; and the positions are applied as a
single batched upsert request (not one write per note). Determinism is
immediate since `handleTidyCanvas` is a pure function of the ordered
list and the width. -/
theorem C6_theorem (notes : List Note) (w : ℚ) (i j : ℕ) (n : Note)
    (hin : notes[i]? = some n) (hij : i ≠ j) :
    (handleTidyCanvas notes w).length = notes.length ∧
    (handleTidyCanvas notes w)[i]? = some
      { id := n.id, user_id := n.user_id,
        canvas_x := ((i % tidyColumns w : ℕ) : ℚ) * (NOTE_WIDTH + GAP_X) + GAP_X,
        canvas_y := ((i / tidyColumns w : ℕ) : ℚ) * (NOTE_HEIGHT + GAP_Y) + GAP_Y } ∧
    ¬(i / tidyColumns w = j / tidyColumns w ∧ i % tidyColumns w = j % tidyColumns w) ∧
    (handleUpdateNotePositions notes (handleTidyCanvas notes w)).2
      = [Request.upsert (handleTidyCanvas notes w)] := by
  refine ⟨tidyAssign_length _ _ _, ?_, ?_, rfl⟩
  · have h := tidyAssign_getElem (tidyColumns w) notes 0 i
    rw [hin] at h
    simpa [handleTidyCanvas] using h
  · rintro ⟨hdiv, hmod⟩
    apply hij
    calc i = tidyColumns w * (i / tidyColumns w) + i % tidyColumns w :=
          (Nat.div_add_mod i _).symm
      _ = tidyColumns w * (j / tidyColumns w) + j % tidyColumns w := by rw [hdiv, hmod]
      _ = j := Nat.div_add_mod j _

/-- Claim C6 witness: tidying the four sample notes at container width
1000 (three columns) yields four rows, and indices 0 and 1 occupy
different grid cells. -/
theorem C6_witness :
    (handleTidyCanvas sampleNotes w1000).length = sampleNotes.length ∧
    ¬(0 / tidyColumns w1000 = 1 / tidyColumns w1000
        ∧ 0 % tidyColumns w1000 = 1 % tidyColumns w1000) := by
  have h := C6_theorem sampleNotes w1000 0 1 sampleNote1 (by decide) (by decide)
  exact ⟨h.1, h.2.2.1⟩

/-! ## Claim C7 -/

/-- Committing a stack assignment leaves every note other than the
source untouched. -/
theorem setStackId_filter_ne (l : List Note) (id target : String) :
    (setStackId l id target).filter (fun n => n.id != id)
      = l.filter (fun n => n.id != id) := by
  induction l with
  | nil => rfl
  | cons n rest ih =>
    by_cases h : n.id = id
    · simp [setStackId, h, List.filter_cons] at ih ⊢
      exact ih
    · simp [setStackId, h, List.filter_cons] at ih ⊢
      exact ih

/-- Committing a stack assignment gives every note with the source id
the target as its stack parent. -/
theorem setStackId_sets (l : List Note) (id target : String) :
    (setStackId l id target).all
      (fun n => !(n.id == id) || (n.stack_id == some target)) = true := by
  induction l with
  | nil => rfl
  | cons n rest ih =>
    by_cases h : n.id = id <;> simp [setStackId, h] at ih ⊢ <;> exact ih

/-- Claim C7: in stacking state `armed(id)`, finish on the source note
itself mutates nothing and keeps the state; "start stacking" on the same
note toggles back to inactive without mutation; finish on a different
target sets the source note's `stack_id` to the target through the
standard update path (all other notes untouched) and returns the machine
to inactive. -/
theorem C7_theorem (s : AppState) (id target : String) (hneq : id ≠ target) :
    handleFinishStack { notes := s.notes, stackingNoteId := some id } id
      = { notes := s.notes, stackingNoteId := some id } ∧
    handleStartStack { notes := s.notes, stackingNoteId := some id } id
      = { notes := s.notes, stackingNoteId := none } ∧
    handleFinishStack { notes := s.notes, stackingNoteId := some id } target
      = { notes := setStackId s.notes id target, stackingNoteId := none } ∧
    (setStackId s.notes id target).filter (fun n => n.id != id)
      = s.notes.filter (fun n => n.id != id) ∧
    (setStackId s.notes id target).all
      (fun n => !(n.id == id) || (n.stack_id == some target)) = true := by
  refine ⟨?_, ?_, ?_, setStackId_filter_ne _ _ _, setStackId_sets _ _ _⟩
  · simp [handleFinishStack]
  · simp [handleStartStack]
  · simp [handleFinishStack, hneq]

/-- Claim C7 witness: concrete armed state over the sample notes —
self-target finish is the identity. -/
theorem C7_witness :
    handleFinishStack { notes := sampleNotes, stackingNoteId := some srcId } srcId
      = { notes := sampleNotes, stackingNoteId := some srcId } :=
  (C7_theorem { notes := sampleNotes, stackingNoteId := none } srcId tgtId (by decide)).1

/-! ## Claim C8 -/

/-- Claim C8 counterexample: changing the search term from "apple" to
"banana" replaces the carousel set with a different set of the same
length; the reset effect is keyed on `carouselNotes.length` only, so an
`activeIndex` of 1 survives instead of being reset to 0. -/
theorem C8_counterexample :
    carouselNotes sampleNotes termApple [] ≠ carouselNotes sampleNotes termBanana [] ∧
    (carouselNotes sampleNotes termApple []).length
      = (carouselNotes sampleNotes termBanana []).length ∧
    effectResetIndex (carouselNotes sampleNotes termApple []).length
      (carouselNotes sampleNotes termBanana []).length 1 = 1 := by
  decide

/-- Claim C8 (amended): the carousel `activeIndex` is reset to 0 exactly
when the carousel set's LENGTH changes; a change of search term, tag
filters, or collection that alters membership or order while preserving
the set's length leaves `activeIndex` untouched. -/
theorem C8_theorem (notes notes2 : List Note) (q q2 : String)
    (ats ats2 : List String) (idx : ℕ) :
    ((carouselNotes notes2 q2 ats2).length ≠ (carouselNotes notes q ats).length →
      effectResetIndex (carouselNotes notes q ats).length
        (carouselNotes notes2 q2 ats2).length idx = 0) ∧
    ((carouselNotes notes2 q2 ats2).length = (carouselNotes notes q ats).length →
      effectResetIndex (carouselNotes notes q ats).length
        (carouselNotes notes2 q2 ats2).length idx = idx) := by
  constructor
  · intro h
    simp [effectResetIndex, h]
  · intro h
    simp [effectResetIndex, h]

/-- Claim C8 witness: clearing the search term changes the carousel
set's length from 2 to 4, and the index is then reset to 0. -/
theorem C8_witness :
    effectResetIndex (carouselNotes sampleNotes termApple []).length
      (carouselNotes sampleNotes termEmpty []).length 1 = 0 :=
  (C8_theorem sampleNotes sampleNotes termApple termEmpty [] [] 1).1 (by decide)

/-! ## Claim C9 -/

/-- Invariant of the carousel navigation machine: in every reachable
state with a non-empty carousel set, `activeIndex` is in range. -/
theorem reachable_activeIndex_lt {s : CarouselState} (h : Reachable s) :
    1 ≤ s.len → s.activeIndex < s.len := by
  induction h with
  | init n =>
    intro hn
    simpa using hn
  | next hr hl ih =>
    intro _
    exact Nat.mod_lt _ (by omega)
  | prev hr hl ih =>
    intro _
    exact Nat.mod_lt _ (by omega)
  | navigate k hr hk ih =>
    intro _
    exact hk
  | @setChange s m hr ih =>
    intro hm
    have hm2 : 1 ≤ m := hm
    show effectResetIndex s.len m s.activeIndex < m
    unfold effectResetIndex
    by_cases hml : m = s.len
    · rw [if_neg (fun hcon => hcon hml)]
      rw [hml]
      exact ih (hml ▸ hm2)
    · rw [if_pos hml]
      omega

/-- Claim C9: in every reachable carousel state with a non-empty set,
the active index is in range, index `j` has offset 0 iff it equals the
active index (so exactly one slide sits at offset 0), that slide has
full opacity, the unique top z-order 100, and pointer events enabled,
while every other slide has pointer events disabled and strictly lower
z-order. -/
theorem C9_theorem (s : CarouselState) (j : ℕ) (hr : Reachable s)
    (hlen : 1 ≤ s.len) (hj : j < s.len) :
    s.activeIndex < s.len ∧
    (((j : ℤ) - (s.activeIndex : ℤ) = 0) ↔ j = s.activeIndex) ∧
    (slideStyle s.activeIndex s.activeIndex).opacity = 1 ∧
    (slideStyle s.activeIndex s.activeIndex).pointerEventsAuto = true ∧
    (slideStyle s.activeIndex s.activeIndex).zIndex = 100 ∧
    (j ≠ s.activeIndex →
      (slideStyle j s.activeIndex).pointerEventsAuto = false ∧
      (slideStyle j s.activeIndex).zIndex < 100) := by
  refine ⟨reachable_activeIndex_lt hr hlen, ?_, ?_, ?_, ?_, ?_⟩
  · constructor <;> intro h <;> omega
  · simp [slideStyle]
  · simp [slideStyle]
  · simp [slideStyle]
  · intro hne
    have hoff : ((j : ℤ) - (s.activeIndex : ℤ)) ≠ 0 := by
      intro h
      exact hne (by omega)
    constructor
    · simp [slideStyle, hoff]
    · have h1 : 1 ≤ |(j : ℤ) - (s.activeIndex : ℤ)| := Int.one_le_abs hoff
      simp only [slideStyle]
      linarith

/-- Claim C9 witness: the reachable state with three carousel notes and
active index 1 (reached by jump-to-note), checked at slide 2. -/
theorem C9_witness :
    (1 : ℕ) < 3 ∧ (slideStyle 1 1).pointerEventsAuto = true ∧
    (slideStyle 2 1).pointerEventsAuto = false := by
  have h := C9_theorem ⟨3, 1⟩ 2
    (Reachable.navigate 1 (Reachable.init 3) (by norm_num)) (by norm_num) (by norm_num)
  exact ⟨h.1, h.2.2.2.1, (h.2.2.2.2.2 (by norm_num)).1⟩

/-! ## Claim C10 -/

/-- Claim C10: a successful delete removes exactly the notes whose id
matches, in place (the remainder is a sublist — every surviving note is
the identical record, all fields included); notes stacked onto the
deleted note are neither removed nor re-parented — they survive with
their `stack_id` still pointing at the now-absent id. -/
theorem C10_theorem (notes : List Note) (id : String) (n : Note) (hn : n ∈ notes) :
    ((deleteNoteProtocol notes id true).notes).Sublist notes ∧
    (n.id ≠ id → n ∈ (deleteNoteProtocol notes id true).notes) ∧
    (n.id = id → n ∉ (deleteNoteProtocol notes id true).notes) ∧
    (n.stack_id = some id → n.id ≠ id →
      n ∈ (deleteNoteProtocol notes id true).notes ∧ n.stack_id = some id) := by
  have hres : (deleteNoteProtocol notes id true).notes
      = notes.filter (fun m => m.id != id) := rfl
  refine ⟨?_, ?_, ?_, ?_⟩
  · rw [hres]
    exact List.filter_sublist _
  · intro h
    rw [hres]
    exact List.mem_filter.mpr ⟨hn, by simpa using h⟩
  · intro h hmem
    rw [hres] at hmem
    have h2 := (List.mem_filter.mp hmem).2
    simp [h] at h2
  · intro hs h
    refine ⟨?_, hs⟩
    rw [hres]
    exact List.mem_filter.mpr ⟨hn, by simpa using h⟩

/-- Claim C10 witness: deleting `n1` from the extended sample collection
keeps the note stacked onto `n1`, with its dangling `stack_id` intact. -/
theorem C10_witness :
    stackedNote ∈ (deleteNoteProtocol notesWithStack delId true).notes ∧
    stackedNote.stack_id = some delId := by
  have h := C10_theorem notesWithStack delId stackedNote (by decide)
  exact h.2.2.2 (by decide) (by decide)

/-! ## Claim C5 -/

/-- Lowering a string yields the empty string only for the empty string. -/
theorem lower_empty_iff (s : String) : lower s = "" ↔ s = "" := by
  cases s with
  | mk l => simp [lower, String.ext_iff]

/-- A non-empty search term never matches inside an empty string. -/
theorem strIncludes_lower_empty_hay (q : String) (hq : q ≠ "") :
    strIncludes (lower (String.mk [])) (lower q) = false := by
  cases q with
  | mk l =>
    cases l with
    | nil => exact absurd rfl hq
    | cons c cs => simp [strIncludes, lower, containsSeq, beginsWith]

/-- The stable pinned-first sort neither adds nor removes notes. -/
theorem mem_sortPinned (l : List Note) (n : Note) : n ∈ sortPinned l ↔ n ∈ l := by
  unfold sortPinned
  by_cases h : n.is_pinned <;> simp [List.mem_append, List.mem_filter, h]

/-- The search clause of the filter agrees with the spec predicate:
empty term, or case-insensitive substring match against text, summary,
or some tag (the code's JS-truthiness guard on an empty summary makes no
difference, since a non-empty term cannot match inside an empty string). -/
theorem searchMatch_iff (q : String) (n : Note) :
    searchMatch q n = true ↔
      (q = "" ∨ IncludesCI n.text q
        ∨ (∃ s, n.summary = some s ∧ IncludesCI s q)
        ∨ (∃ t, t ∈ specTags n ∧ IncludesCI t q)) := by
  unfold searchMatch
  by_cases hq : q = ""
  · subst hq
    simp [show lower "" = "" from rfl]
  · rw [if_neg (fun hcon => hq ((lower_empty_iff q).mp hcon))]
    have hsummary : (match n.summary with
        | some s => !(s == "") && strIncludes (lower s) (lower q)
        | none => false) = true ↔ (∃ s, n.summary = some s ∧ IncludesCI s q) := by
      cases hs : n.summary with
      | none => simp
      | some s =>
        by_cases hse : s = ""
        · subst hse
          have key : strIncludes (lower "") (lower q) = false :=
            strIncludes_lower_empty_hay q hq
          simp [IncludesCI, key]
        · simp [hse, IncludesCI]
    have htags : (match n.tags with
        | some ts => ts.any (fun t => strIncludes (lower t) (lower q))
        | none => false) = true ↔ (∃ t, t ∈ specTags n ∧ IncludesCI t q) := by
      cases ht : n.tags with
      | none => simp [specTags, ht]
      | some ts => simp [specTags, ht, List.any_eq_true, IncludesCI]
    rw [Bool.or_eq_true, Bool.or_eq_true, hsummary, htags]
    simp [IncludesCI, hq, or_assoc]

/-- The tag clause of the filter agrees with the spec predicate: no
active filters, or every active tag among the note's tags (an absent
tags array behaving as empty). -/
theorem tagsMatch_iff (ats : List String) (n : Note) :
    tagsMatch ats n = true ↔ (ats = [] ∨ ∀ a, a ∈ ats → a ∈ specTags n) := by
  unfold tagsMatch
  cases ats with
  | nil => simp
  | cons a l =>
    cases ht : n.tags with
    | none =>
      simp [specTags, ht, List.all_eq_true]
      exact ⟨a, by simp⟩
    | some ts =>
      simp [specTags, ht, List.all_eq_true]

/-- The pinned-first partition is a permutation of its input (the stable
sort only reorders). -/
theorem sortPinned_perm (l : List Note) : List.Perm (sortPinned l) l :=
  List.filter_append_perm _ l

/-- The pinned-first partition is sorted with respect to the source
comparator `pinCompare` (so together with `sortPinned_perm` and the fact
that each pin class is a filter — hence in original relative order — it
is THE stable sort of the comparator at `src/App.tsx` lines 161-165). -/
theorem sortPinned_pairwise (l : List Note) :
    (sortPinned l).Pairwise (fun a b => pinCompare a b ≤ 0) := by
  unfold sortPinned
  rw [List.pairwise_append]
  refine ⟨?_, ?_, ?_⟩
  · apply List.pairwise_of_forall_mem_list
    intro a ha b hb
    have h1 := (List.mem_filter.mp ha).2
    have h2 := (List.mem_filter.mp hb).2
    simp only [pinCompare]
    simp at h1 h2
    simp [h1, h2]
  · apply List.pairwise_of_forall_mem_list
    intro a ha b hb
    have h1 := (List.mem_filter.mp ha).2
    have h2 := (List.mem_filter.mp hb).2
    simp only [pinCompare]
    simp at h1 h2
    simp [h1, h2]
  · intro a ha b hb
    have h1 := (List.mem_filter.mp ha).2
    have h2 := (List.mem_filter.mp hb).2
    simp only [pinCompare]
    simp at h1 h2
    simp [h1, h2]

/-- The pinned notes of the sorted filter result are the pinned notes of
the unsorted filter result, in the same order. -/
theorem sortPinned_filter_pinned (l : List Note) :
    (sortPinned l).filter (fun n => n.is_pinned) = l.filter (fun n => n.is_pinned) := by
  unfold sortPinned
  rw [List.filter_append]
  simp [List.filter_filter, Bool.and_self, Bool.and_not_self]

/-- The unpinned notes of the sorted filter result are the unpinned
notes of the unsorted filter result, in the same order. -/
theorem sortPinned_filter_unpinned (l : List Note) :
    (sortPinned l).filter (fun n => !n.is_pinned) = l.filter (fun n => !n.is_pinned) := by
  unfold sortPinned
  rw [List.filter_append]
  simp [List.filter_filter, Bool.and_self, Bool.not_and_self]

/-- Claim C5: a note appears in the filtered list iff it is in the
collection and satisfies the spec predicate — (empty search term, or
case-insensitive substring match against text, summary, or a tag) and
(no active tag filters, or every active tag present, absent tags
treated as empty); and the filtered list is the stable pinned partition:
it equals its pinned notes followed by its unpinned notes, each group a
sublist of the underlying collection (so relative order within each
group follows the collection order and ties never reorder). -/
theorem C5_theorem (notes : List Note) (q : String) (ats : List String) (n : Note) :
    (n ∈ filteredNotes notes q ats ↔ n ∈ notes ∧ SpecVisible q ats n) ∧
    filteredNotes notes q ats
      = (filteredNotes notes q ats).filter (fun m => m.is_pinned)
        ++ (filteredNotes notes q ats).filter (fun m => !m.is_pinned) ∧
    ((filteredNotes notes q ats).filter (fun m => m.is_pinned)).Sublist notes ∧
    ((filteredNotes notes q ats).filter (fun m => !m.is_pinned)).Sublist notes := by
  refine ⟨?_, ?_, ?_, ?_⟩
  · unfold filteredNotes
    rw [mem_sortPinned, List.mem_filter]
    rw [Bool.and_eq_true, searchMatch_iff, tagsMatch_iff]
    exact Iff.rfl
  · show sortPinned _ = _
    unfold filteredNotes
    rw [sortPinned_filter_pinned, sortPinned_filter_unpinned]
    rfl
  · unfold filteredNotes
    rw [sortPinned_filter_pinned]
    exact (List.filter_sublist _).trans (List.filter_sublist _)
  · unfold filteredNotes
    rw [sortPinned_filter_unpinned]
    exact (List.filter_sublist _).trans (List.filter_sublist _)

end Stickon
